import Mathlib

/-!
Verification of the job-listings dashboard (`src/dashboard.py`).

The program is a Dash application over a pandas dataframe: a one-time CSV
load, a derived `ParsedExperience` column, a static per-city unique-skill
map table joined against a fixed 6-city coordinate lookup, and two reactive
callbacks (`update_table`, `update_visualizations`) that filter the base
table by state/city selections and recompute five aggregations.

Modelling choices, all from the source:
  * A dataframe is a `List Row`; a missing (NaN) cell is `none`.
  * Python numeric parsing (`float(...)`, which raises on failure) is a
    parameter `pf : String → Option ℚ` (`none` = the call raised); the
    source's control flow around it is embedded exactly.
  * pandas `Series.str.split(',')` is Python `str.split(',')`, embedded as
    `splitCommaList` on character lists; `str.strip()` is `pyStrip`.
  * `value_counts` / `groupby(...).size()` are embedded as a count per
    distinct key.  pandas' display ordering of the result rows (sorted by
    count, resp. by key) is abstracted: keys are listed in first-occurrence
    order.  The spec (§4.3) explicitly exempts display ordering, and no
    claim depends on it.
  * Plotly histogram binning happens inside the plotting library; only the
    value list and the `nbins=20` argument are determined by the source, so
    binning is a parameter `binify`.
  * IEEE floats carry no arithmetic in the claims; they are modelled as ℚ.
-/

namespace Dashboard

/-- A row of the base table (`df`), with the six columns the program uses.
A `none` field models a NaN / missing cell. -/
structure Row where
  Title : Option String
  Company : Option String
  City : Option String
  State : Option String
  Experience : Option String
  Skills : Option String
deriving DecidableEq

/-- Python `str.split(',')` on a character list: split at every comma.
`''.split(',') == ['']`, `'a,'.split(',') == ['a','']`. -/
def splitCommaList : List Char → List (List Char)
  | [] => [[]]
  | c :: rest =>
    if c = ',' then
      [] :: splitCommaList rest
    else
      match splitCommaList rest with
      | [] => [[c]]
      | t :: ts => (c :: t) :: ts

/-- Python `str.split(',')` on strings (pandas `Series.str.split(',')`). -/
def splitCommas (s : String) : List String :=
  (splitCommaList s.data).map String.mk

/-- Python `str.strip()` (pandas `Series.str.strip()`): drop whitespace from
both ends. -/
def pyStrip (s : String) : String :=
  String.mk (((s.data.dropWhile Char.isWhitespace).reverse.dropWhile
    Char.isWhitespace).reverse)

/-- `str(val).split('-')[0]`: the part of the string before the first
hyphen (the whole string when there is none). -/
def beforeHyphen (s : String) : String :=
  String.mk (s.data.takeWhile (fun c => c ≠ '-'))

/-- `parse_experience` (dashboard.py lines 17–25), parametrised by the
Python `float` conversion `pf` (`none` models a raised exception, which the
bare `except:` turns into NaN).  `none` input models `pd.isna(val)`. -/
def parse_experience (pf : String → Option ℚ) : Option String → Option ℚ
  | none => none
  | some s => if '-' ∈ s.data then pf (beforeHyphen s) else pf s

/-- The derived column `df['ParsedExperience']` for one row (line 27). -/
def parsedExperience (pf : String → Option ℚ) (r : Row) : Option ℚ :=
  parse_experience pf r.Experience

/-- Adding the derived column (line 27): `df['Experience'].apply(...)` maps
over rows and never drops one. -/
def addParsedColumn (pf : String → Option ℚ) (df : List Row) :
    List (Row × Option ℚ) :=
  df.map (fun r => (r, parsedExperience pf r))

/-- One `isin` filtering clause of a callback:
`if sel: filtered = filtered[filtered[col].isin(sel)]`.
Python truthiness: `None` and `[]` both skip the clause.  pandas `isin` is
`False` on a NaN cell (for string selections). -/
def applyIsin (field : Row → Option String) (sel : Option (List String))
    (df : List Row) : List Row :=
  match sel with
  | none => df
  | some l =>
    if l.isEmpty then df
    else df.filter (fun r => match field r with
      | some v => l.contains v
      | none => false)

/-- The table-filter callback `update_table` (lines 151–157), up to the
final `to_dict('records')` serialisation (modelled separately). -/
def update_table (df : List Row) (selected_states selected_cities :
    Option (List String)) : List Row :=
  applyIsin Row.City selected_cities (applyIsin Row.State selected_states df)

/-- The graph callback `update_visualizations` applies the same two
clauses to the base table (lines 170–174). -/
def filteredForGraphs (df : List Row) (selected_states selected_cities :
    Option (List String)) : List Row :=
  applyIsin Row.City selected_cities (applyIsin Row.State selected_states df)

/-- pandas `Series.value_counts()` content: one `(value, count)` pair per
distinct non-null value (the NaN cells of the series are dropped).  Display
order (sorted by count) abstracted to first-occurrence order. -/
def value_counts (l : List String) : List (String × Nat) :=
  l.dedup.map (fun k => (k, l.count k))

/-- `filtered_df['City'].value_counts()` (lines 182–184). -/
def countByCity (df : List Row) : List (String × Nat) :=
  value_counts (df.filterMap Row.City)

/-- `filtered_df['State'].value_counts()` (lines 187–189). -/
def countByState (df : List Row) : List (String × Nat) :=
  value_counts (df.filterMap Row.State)

/-- `filtered_df['Company'].value_counts()` (lines 192–194). -/
def countByCompany (df : List Row) : List (String × Nat) :=
  value_counts (df.filterMap Row.Company)

/-- `df[['City','Skills']].dropna()`: keep the `(City, Skills)` pairs of the
rows where both are present (lines 37 and 195). -/
def dropnaCitySkills (df : List Row) : List (String × String) :=
  df.filterMap (fun r => match r.City, r.Skills with
    | some c, some s => some (c, s)
    | _, _ => none)

/-- The split / explode / strip pipeline shared by the load-time skill map
(lines 38–40) and the treemap pivot (lines 196–198): split `Skills` on
commas, one row per `(City, token)` pair, then strip each token. -/
def explodeSkills (df : List Row) : List (String × String) :=
  ((dropnaCitySkills df).flatMap
      (fun cs => (splitCommas cs.2).map (fun t => (cs.1, t)))).map
    (fun p => (p.1, pyStrip p.2))

/-- `groupby(['City','Skills']).size()` (line 199): one row per distinct
`(City, skill)` key with its number of occurrences.  Display order (sorted
by key) abstracted to first-occurrence order. -/
def skillPivot (df : List Row) : List ((String × String) × Nat) :=
  (explodeSkills df).dedup.map (fun k => (k, (explodeSkills df).count k))

/-- The multiset of values the histogram call receives (line 178):
`px.histogram(filtered_df, x='ParsedExperience', nbins=20)` plots the
present (non-NaN) `ParsedExperience` values. -/
def histogramValues (pf : String → Option ℚ) (df : List Row) : List ℚ :=
  df.filterMap (parsedExperience pf)

/-- The experience histogram (lines 178–179).  Binning is performed inside
the plotting library; the source determines only the value list and the
`nbins=20` argument, so the binner `binify` is a parameter. -/
def experienceHistogram (binify : List ℚ → Nat → List ((ℚ × ℚ) × Nat))
    (pf : String → Option ℚ) (df : List Row) : List ((ℚ × ℚ) × Nat) :=
  binify (histogramValues pf df) 20

/-- The fixed geolocation lookup `city_coords` (lines 30–34):
`(City, Latitude, Longitude)`. -/
def city_coords : List (String × ℚ × ℚ) :=
  [("Sydney", -33.8698, 151.2083),
   ("Melbourne", -37.8142, 144.9632),
   ("Brisbane", -27.4690, 153.0235),
   ("Perth", -31.9559, 115.8606),
   ("Adelaide", -34.9282, 138.5999),
   ("Canberra", -35.2976, 149.1013)]

/-- The distinct stripped skill tokens seen for one city across the whole
table (the series `groupby('City')['Skills']` feeds to `nunique`). -/
def distinctSkills (df : List Row) (c : String) : List String :=
  (((explodeSkills df).filter (fun p => p.1 = c)).map Prod.snd).dedup

/-- `skill_counts` (lines 37–41): per city, the number of distinct skill
tokens (`groupby('City')['Skills'].nunique()`). -/
def skill_counts (df : List Row) : List (String × Nat) :=
  ((explodeSkills df).map Prod.fst).dedup.map
    (fun c => (c, (distinctSkills df c).length))

/-- `skills_map_df` (line 44): inner merge of `skill_counts` with
`city_coords` on `City`; a city missing from the lookup produces no row. -/
def skills_map_df (df : List Row) : List (String × Nat × ℚ × ℚ) :=
  (skill_counts df).filterMap (fun cn =>
    (city_coords.find? (fun t => t.1 = cn.1)).map
      (fun t => (cn.1, cn.2, t.2.1, t.2.2)))

/-- The data behind the map figure for a given filter selection.  The
figure is built once in the static layout (lines 84–98) directly from
`skills_map_df`, and neither callback outputs to the `Skill Map` tab, so
the rendered map data does not depend on the selection arguments. -/
def renderedMapData (df : List Row) (_selected_states _selected_cities :
    Option (List String)) : List (String × Nat × ℚ × ℚ) :=
  skills_map_df df

/-- A cell of a serialised record: a string, a number, or null (NaN). -/
inductive CellValue where
  | str : String → CellValue
  | num : ℚ → CellValue
  | null : CellValue
deriving DecidableEq

/-- An optional string cell as serialised by `to_dict`. -/
def cellOf : Option String → CellValue
  | some v => .str v
  | none => .null

/-- An optional numeric cell as serialised by `to_dict`. -/
def numCellOf : Option ℚ → CellValue
  | some v => .num v
  | none => .null

/-- `to_dict('records')` for one row: every column of the dataframe — the
six schema columns (§3 order) plus the derived `ParsedExperience` added on
line 27 — keyed by column name. -/
def rowRecord (pf : String → Option ℚ) (r : Row) :
    List (String × CellValue) :=
  [("Title", cellOf r.Title),
   ("Company", cellOf r.Company),
   ("City", cellOf r.City),
   ("State", cellOf r.State),
   ("Experience", cellOf r.Experience),
   ("Skills", cellOf r.Skills),
   ("ParsedExperience", numCellOf (parsedExperience pf r))]

/-- A row projected to only the five job-table columns. -/
def projectRecord (r : Row) : List (String × CellValue) :=
  [("Title", cellOf r.Title),
   ("Company", cellOf r.Company),
   ("City", cellOf r.City),
   ("State", cellOf r.State),
   ("Experience", cellOf r.Experience)]

/-- The columns the `job-table` `DataTable` declares (line 129): these and
only these are displayed. -/
def jobTableColumns : List String :=
  ["Title", "Company", "City", "State", "Experience"]

/-- Restrict a serialised record to a set of displayed columns. -/
def restrictRecord (cols : List String) (rec : List (String × CellValue)) :
    List (String × CellValue) :=
  rec.filter (fun kv => cols.contains kv.1)

/-- The row-list the `update_table` callback actually delivers (line 157):
`filtered_df.to_dict('records')`, i.e. every column of every filtered
row. -/
def update_table_records (pf : String → Option ℚ) (df : List Row)
    (selected_states selected_cities : Option (List String)) :
    List (List (String × CellValue)) :=
  (update_table df selected_states selected_cities).map (rowRecord pf)

/-- The conjunctive row predicate the filter callbacks implement: a clause
whose selection is `None` or `[]` (Python-falsy) keeps every row, otherwise
it keeps the rows whose field value is a member of the selection (a NaN
cell is never a member). -/
def keepBySel (sel : Option (List String)) (v : Option String) : Bool :=
  match sel with
  | none => true
  | some l =>
    if l.isEmpty then true
    else match v with
      | some s => l.contains s
      | none => false

/-- First example row of §8: `{City: Sydney, Skills: "Python, SQL"}`. -/
def exRow1 : Row :=
  ⟨none, none, some "Sydney", some "NSW", some "2-4", some "Python, SQL"⟩

/-- Second example row of §8: `{City: Sydney, Skills: "SQL, Java"}`. -/
def exRow2 : Row :=
  ⟨none, none, some "Sydney", some "NSW", none, some "SQL, Java"⟩

/-- A concrete NSW/Sydney row used in witnesses. -/
def wRow1 : Row :=
  ⟨some "Dev", some "Acme", some "Sydney", some "NSW", some "3-5", some "Python"⟩

/-- A concrete WA/Perth row used in witnesses. -/
def wRow2 : Row :=
  ⟨some "Eng", some "Beta", some "Perth", some "WA", some "5", none⟩

/-- A row with a missing (NaN) City cell. -/
def nullCityRow : Row :=
  ⟨some "Ops", some "Gamma", none, some "NSW", none, none⟩

/-- A row whose Skills string has a trailing comma. -/
def trailingCommaRow : Row :=
  ⟨none, none, some "Sydney", some "NSW", none, some "Python,"⟩

/-- A concrete numeric parser standing in for Python `float` in witnesses:
defined on the few literals the examples use. -/
def pfLit : String → Option ℚ := fun s =>
  if s = "2" then some 2 else if s = "3" then some 3
  else if s = "5" then some 5 else none

/-! ### Helper lemmas -/

theorem splitCommaList_ne_nil (l : List Char) : splitCommaList l ≠ [] := by
  match l with
  | [] => simp [splitCommaList]
  | c :: rest =>
    simp only [splitCommaList]
    split
    · simp
    · split <;> simp

theorem splitCommaList_append (l₁ l₂ : List Char) :
    splitCommaList (l₁ ++ ',' :: l₂) =
      splitCommaList l₁ ++ splitCommaList l₂ := by
  induction l₁ with
  | nil => simp [splitCommaList]
  | cons c rest ih =>
    by_cases h : c = ','
    · subst h
      simp [splitCommaList, ih]
    · rw [List.cons_append]
      simp only [splitCommaList, h, if_neg, ih]
      cases hsr : splitCommaList rest with
      | nil => exact absurd hsr (splitCommaList_ne_nil rest)
      | cons t ts => simp

theorem sum_counts_dedup {α : Type} [DecidableEq α] (l : List α) :
    (l.dedup.map (fun k => l.count k)).sum = l.length := by
  have h := Multiset.toFinset_sum_count_eq (l : Multiset α)
  simpa [Finset.sum, List.toFinset, Multiset.toFinset] using h

theorem counts_map_perm {α : Type} [DecidableEq α] [BEq α] {l₁ l₂ : List α}
    (p : l₁.Perm l₂) :
    (l₁.dedup.map (fun k => (k, l₁.count k))).Perm
      (l₂.dedup.map (fun k => (k, l₂.count k))) := by
  have hf : (fun k : α => (k, l₁.count k)) = fun k => (k, l₂.count k) := by
    funext k
    have h := p.countP_eq (fun b => b == k)
    simpa [List.count] using h
  rw [hf]
  exact p.dedup.map _

theorem applyIsin_eq_filter (field : Row → Option String)
    (sel : Option (List String)) (df : List Row) :
    applyIsin field sel df = df.filter (fun r => keepBySel sel (field r)) := by
  cases sel with
  | none => simp [applyIsin, keepBySel]
  | some l =>
    by_cases h : l.isEmpty
    · simp [applyIsin, keepBySel, h]
    · simp [applyIsin, keepBySel, h]

theorem explodeSkills_perm {df₁ df₂ : List Row} (p : df₁.Perm df₂) :
    (explodeSkills df₁).Perm (explodeSkills df₂) :=
  (((p.filterMap _).flatMap_right _).map _)

theorem mem_explodeSkills {df : List Row} {r : Row} {c sk t : String}
    (hr : r ∈ df) (hc : r.City = some c) (hs : r.Skills = some sk)
    (ht : t ∈ splitCommas sk) : (c, pyStrip t) ∈ explodeSkills df := by
  unfold explodeSkills
  refine List.mem_map.2 ⟨(c, t), ?_, rfl⟩
  refine List.mem_flatMap.2 ⟨(c, sk), ?_, List.mem_map.2 ⟨t, ht, rfl⟩⟩
  exact List.mem_filterMap.2 ⟨r, hr, by rw [hc, hs]⟩

/-! ### Claims -/

/-- C1: For every base table and every pair of optional state/city
selections, a none-or-empty selection applies no restriction and a
non-empty one retains exactly the rows whose field is a member of it, the
two clauses combining conjunctively; with both selections none/empty the
filter returns the base table unchanged, row for row. -/
theorem update_table_conjunctive (df : List Row)
    (states cities : Option (List String)) :
    update_table df states cities
      = df.filter (fun r => keepBySel states r.State && keepBySel cities r.City)
  ∧ ((states = none ∨ states = some []) → (cities = none ∨ cities = some []) →
      update_table df states cities = df) := by
  constructor
  · unfold update_table
    rw [applyIsin_eq_filter, applyIsin_eq_filter, List.filter_filter]
    exact List.filter_congr (fun r _ => by rw [Bool.and_comm])
  · intro hs hc
    rcases hs with rfl | rfl <;> rcases hc with rfl | rfl <;>
      simp [update_table, applyIsin]

/-- Witness for C1 at a concrete two-row table: an empty city selection and
no state selection leave the table unchanged. -/
theorem update_table_conjunctive_witness :
    update_table [wRow1, wRow2] none (some []) = [wRow1, wRow2] :=
  (update_table_conjunctive [wRow1, wRow2] none (some [])).2
    (Or.inl rfl) (Or.inr rfl)

/-- C2: `parse_experience` returns absent on a missing value; on a value
containing a hyphen it parses the part before the first hyphen, otherwise
the whole value; a failed parse (in either branch) yields absent rather
than an exception; and deriving the column never drops a row. -/
theorem parse_experience_spec (pf : String → Option ℚ) :
    parse_experience pf none = none
  ∧ (∀ s : String, '-' ∈ s.data →
      parse_experience pf (some s) = pf (beforeHyphen s))
  ∧ (∀ s : String, '-' ∉ s.data → parse_experience pf (some s) = pf s)
  ∧ (∀ s : String, pf (beforeHyphen s) = none → pf s = none →
      parse_experience pf (some s) = none)
  ∧ (∀ df : List Row, (addParsedColumn pf df).length = df.length) := by
  refine ⟨rfl, ?_, ?_, ?_, ?_⟩
  · intro s hs
    simp [parse_experience, hs]
  · intro s hs
    simp [parse_experience, hs]
  · intro s h₁ h₂
    by_cases hs : '-' ∈ s.data <;> simp [parse_experience, hs, h₁, h₂]
  · intro df
    simp [addParsedColumn]

/-- Witness for C2 with a concrete parser: `"3-5"` parses to the value
before the hyphen, `"5"` parses whole, and an unparseable string yields
absent. -/
theorem parse_experience_spec_witness :
    parse_experience pfLit (some "3-5") = pfLit (beforeHyphen "3-5")
  ∧ parse_experience pfLit (some "5") = pfLit "5"
  ∧ parse_experience pfLit (some "abc") = none :=
  ⟨(parse_experience_spec pfLit).2.1 "3-5" (by decide),
   (parse_experience_spec pfLit).2.2.1 "5" (by decide),
   (parse_experience_spec pfLit).2.2.2.1 "abc" (by decide) (by decide)⟩

/-- C3: the treemap pivot produces exactly one output row per distinct
(city, trimmed skill) pair present in the exploded filtered data, each with
its occurrence count, and on the §8 example rows it yields exactly
(Sydney,Python,1), (Sydney,SQL,2), (Sydney,Java,1). -/
theorem skillPivot_distinct_pairs :
    (∀ df : List Row,
      (skillPivot df).map Prod.fst = (explodeSkills df).dedup
      ∧ ((skillPivot df).map Prod.fst).Nodup
      ∧ (∀ k n, (k, n) ∈ skillPivot df ↔
          k ∈ explodeSkills df ∧ n = (explodeSkills df).count k))
  ∧ skillPivot [exRow1, exRow2] =
      [(("Sydney", "Python"), 1), (("Sydney", "SQL"), 2),
       (("Sydney", "Java"), 1)] := by
  constructor
  · intro df
    have hkeys : (skillPivot df).map Prod.fst = (explodeSkills df).dedup := by
      unfold skillPivot
      rw [List.map_map]
      exact List.map_id _
    refine ⟨hkeys, ?_, ?_⟩
    · rw [hkeys]
      exact (explodeSkills df).nodup_dedup
    · intro k n
      constructor
      · intro h
        unfold skillPivot at h
        rcases List.mem_map.1 h with ⟨k', hk', heq⟩
        injection heq with h1 h2
        subst h1
        subst h2
        exact ⟨List.mem_dedup.1 hk', rfl⟩
      · rintro ⟨hk, rfl⟩
        unfold skillPivot
        exact List.mem_map.2 ⟨k, List.mem_dedup.2 hk, rfl⟩
  · decide

/-- Witness for C3: the pair (Sydney, Python) occurs once in the pivot of
the first example row. -/
theorem skillPivot_distinct_pairs_witness :
    (("Sydney", "Python"), 1) ∈ skillPivot [exRow1] :=
  ((skillPivot_distinct_pairs.1 [exRow1]).2.2 ("Sydney", "Python") 1).mpr
    ⟨by decide, by decide⟩

/-- C4 as stated is false: on a filtered table containing a row whose City
is missing, the counts of `value_counts` sum to the non-null-City rows
only, not to the total row count. -/
theorem countByCity_total_cex :
    ¬ ((countByCity (update_table [nullCityRow] none none)).map Prod.snd).sum
        = (update_table [nullCityRow] none none).length := by decide

/-- C4 amended: CountByCity produces one (category, count) row per distinct
non-null City value present, and the sum of its counts equals the number of
rows of the filtered table whose City is non-null, each such row counted
exactly once. -/
theorem countByCity_partition (df : List Row) :
    (countByCity df).map Prod.fst = (df.filterMap Row.City).dedup
  ∧ ((countByCity df).map Prod.fst).Nodup
  ∧ ((countByCity df).map Prod.snd).sum = (df.filterMap Row.City).length
  ∧ (∀ k n, (k, n) ∈ countByCity df ↔
      k ∈ df.filterMap Row.City ∧ n = (df.filterMap Row.City).count k) := by
  have hkeys : (countByCity df).map Prod.fst = (df.filterMap Row.City).dedup := by
    unfold countByCity value_counts
    rw [List.map_map]
    exact List.map_id _
  refine ⟨hkeys, ?_, ?_, ?_⟩
  · rw [hkeys]
    exact (df.filterMap Row.City).nodup_dedup
  · unfold countByCity value_counts
    rw [List.map_map]
    exact sum_counts_dedup _
  · intro k n
    constructor
    · intro h
      unfold countByCity value_counts at h
      rcases List.mem_map.1 h with ⟨k', hk', heq⟩
      injection heq with h1 h2
      subst h1
      subst h2
      exact ⟨List.mem_dedup.1 hk', rfl⟩
    · rintro ⟨hk, rfl⟩
      unfold countByCity value_counts
      exact List.mem_map.2 ⟨k, List.mem_dedup.2 hk, rfl⟩

/-- Witness for C4 (amended): Sydney occurs once in the city counts of a
concrete Sydney/Perth table. -/
theorem countByCity_partition_witness :
    ("Sydney", 1) ∈ countByCity [wRow1, wRow2] :=
  ((countByCity_partition [wRow1, wRow2]).2.2.2 "Sydney" 1).mpr
    ⟨by decide, by decide⟩

/-- C5: a selection whose values match no row yields an empty filtered
table rather than an error (shown for each clause), and on an empty
filtered table every aggregation returns an empty result.  (`Never raises`
is definitional here: every embedded function is total.) -/
theorem pipeline_empty_safe :
    (∀ (df : List Row) (l : List String) (cities : Option (List String)),
      l ≠ [] → (∀ r ∈ df, ∀ s ∈ l, r.State ≠ some s) →
      update_table df (some l) cities = [])
  ∧ (∀ (df : List Row) (l : List String) (states : Option (List String)),
      l ≠ [] → (∀ r ∈ df, ∀ s ∈ l, r.City ≠ some s) →
      update_table df states (some l) = [])
  ∧ countByCity [] = [] ∧ countByState [] = [] ∧ countByCompany [] = []
  ∧ skillPivot [] = []
  ∧ (∀ pf, histogramValues pf [] = [])
  ∧ (∀ binify pf, binify [] 20 = [] →
      experienceHistogram binify pf [] = []) := by
  have hnil : ∀ (field : Row → Option String) (sel : Option (List String)),
      applyIsin field sel [] = [] := by
    intro field sel
    cases sel <;> simp [applyIsin]
  have hnomatch : ∀ (field : Row → Option String) (df : List Row)
      (l : List String), l ≠ [] → (∀ r ∈ df, ∀ s ∈ l, field r ≠ some s) →
      applyIsin field (some l) df = [] := by
    intro field df l hne hno
    simp only [applyIsin]
    rw [if_neg (by simpa [List.isEmpty_iff] using hne)]
    apply List.filter_eq_nil_iff.2
    intro r hr
    cases hfield : field r with
    | none => simp
    | some s =>
      simp only [Bool.not_eq_true]
      apply Bool.eq_false_iff.2
      intro hcontains
      exact hno r hr s (by simpa using hcontains) hfield
  refine ⟨?_, ?_, rfl, rfl, rfl, rfl, fun pf => rfl, fun binify pf hb => hb⟩
  · intro df l cities hne hno
    unfold update_table
    rw [hnomatch Row.State df l hne hno, hnil]
  · intro df l states hne hno
    unfold update_table
    apply hnomatch Row.City (applyIsin Row.State states df) l hne
    intro r hr
    rw [applyIsin_eq_filter] at hr
    exact hno r (List.mem_filter.1 hr).1

/-- Witness for C5: a selection for a state no row has empties a concrete
table, and the histogram of the empty table is empty for any binner that
maps no data to no bins. -/
theorem pipeline_empty_safe_witness :
    update_table [wRow1, wRow2] (some ["QLD"]) none = []
  ∧ experienceHistogram (fun _ _ => []) pfLit [] = [] :=
  ⟨pipeline_empty_safe.1 [wRow1, wRow2] ["QLD"] none (by decide) (by decide),
   pipeline_empty_safe.2.2.2.2.2.2.2 (fun _ _ => []) pfLit rfl⟩

/-- C6 as stated is false: `update_table` returns
`filtered_df.to_dict('records')`, which serialises every column of the
dataframe (Skills and ParsedExperience included), not the projection to the
five job-table columns. -/
theorem job_table_records_cex :
    update_table_records pfLit [wRow1] none none
      ≠ (update_table [wRow1] none none).map projectRecord := by decide

/-- C6 amended: the delivered row-list is the filtered rows with all seven
dataframe columns; the DataTable's declared column set is exactly
Title/Company/City/State/Experience, and restricting each delivered record
to those declared columns yields precisely the filtered rows projected to
the five columns. -/
theorem job_table_projection (pf : String → Option ℚ) (df : List Row)
    (states cities : Option (List String)) :
    jobTableColumns = ["Title", "Company", "City", "State", "Experience"]
  ∧ (update_table_records pf df states cities).map
        (restrictRecord jobTableColumns)
      = (update_table df states cities).map projectRecord
  ∧ ∀ rec ∈ update_table_records pf df states cities,
      rec.map Prod.fst =
        ["Title", "Company", "City", "State", "Experience", "Skills",
         "ParsedExperience"] := by
  refine ⟨rfl, ?_, ?_⟩
  · unfold update_table_records
    rw [List.map_map]
    have hcomp : restrictRecord jobTableColumns ∘ rowRecord pf
        = projectRecord := by
      funext r
      rfl
    rw [hcomp]
  · intro rec hrec
    unfold update_table_records at hrec
    rcases List.mem_map.1 hrec with ⟨r, _, rfl⟩
    rfl

/-- Witness for C6 (amended): the record delivered for a concrete row
carries all seven column keys. -/
theorem job_table_projection_witness :
    (rowRecord pfLit wRow1).map Prod.fst =
      ["Title", "Company", "City", "State", "Experience", "Skills",
       "ParsedExperience"] :=
  (job_table_projection pfLit [wRow1] none none).2.2
    (rowRecord pfLit wRow1) (by decide)

/-- C8: each of the five aggregations is insensitive to the order of the
filtered rows — permuted inputs give the same multiset of output rows (the
claim itself exempts display ordering) — and is deterministic (definitional
here: the embedding is purely functional). -/
theorem aggregations_order_insensitive (pf : String → Option ℚ)
    (df₁ df₂ : List Row) (p : df₁.Perm df₂) :
    (countByCity df₁).Perm (countByCity df₂)
  ∧ (countByState df₁).Perm (countByState df₂)
  ∧ (countByCompany df₁).Perm (countByCompany df₂)
  ∧ (skillPivot df₁).Perm (skillPivot df₂)
  ∧ (histogramValues pf df₁).Perm (histogramValues pf df₂)
  ∧ ∀ df : List Row,
      (countByCity df, countByState df, countByCompany df, skillPivot df,
        histogramValues pf df)
      = (countByCity df, countByState df, countByCompany df, skillPivot df,
        histogramValues pf df) :=
  ⟨counts_map_perm (p.filterMap _), counts_map_perm (p.filterMap _),
   counts_map_perm (p.filterMap _), counts_map_perm (explodeSkills_perm p),
   p.filterMap _, fun _ => rfl⟩

/-- Witness for C8: swapping two concrete rows permutes (here: preserves)
the city counts. -/
theorem aggregations_order_insensitive_witness :
    (countByCity [wRow1, wRow2]).Perm (countByCity [wRow2, wRow1]) :=
  (aggregations_order_insensitive pfLit [wRow1, wRow2] [wRow2, wRow1]
    (List.Perm.swap wRow2 wRow1 [])).1

/-- C9: the rendered map data is the same for every filter selection and
equals the load-time `skills_map_df` of the base table; every row of that
table has its city in the fixed 6-city lookup (inner-join restriction);
and the restriction touches the map table only — the unfiltered base table
is delivered unchanged. -/
theorem skills_map_static (df : List Row)
    (s₁ c₁ s₂ c₂ : Option (List String)) :
    renderedMapData df s₁ c₁ = renderedMapData df s₂ c₂
  ∧ renderedMapData df s₁ c₁ = skills_map_df df
  ∧ (∀ row ∈ skills_map_df df, ∃ t ∈ city_coords, t.1 = row.1)
  ∧ update_table df none none = df := by
  refine ⟨rfl, rfl, ?_, by simp [update_table, applyIsin]⟩
  intro row hrow
  unfold skills_map_df at hrow
  rcases List.mem_filterMap.1 hrow with ⟨cn, _, hmap⟩
  rcases Option.map_eq_some'.1 hmap with ⟨t, hfind, hrow_eq⟩
  refine ⟨t, List.mem_of_find?_eq_some hfind, ?_⟩
  have ht := List.find?_some hfind
  rw [← hrow_eq]
  exact of_decide_eq_true ht

/-- Witness for C9: the Sydney row of the example map table really points
into the coordinate lookup. -/
theorem skills_map_static_witness : ∃ t ∈ city_coords, t.1 = "Sydney" :=
  (skills_map_static [exRow1] none none none none).2.2.1
    ("Sydney", 2, -33.8698, 151.2083) (List.Mem.head _)

/-- C10: a Skills string with a leading comma, trailing comma, or two
consecutive commas produces an empty-string token that is not discarded:
it survives split-and-strip, SkillPivot emits a (City, "") row with its
positive occurrence count, and the city's UniqueSkills tally includes ""
as one distinct skill. -/
theorem empty_skill_token (df : List Row) (r : Row) (c sk : String)
    (hr : r ∈ df) (hc : r.City = some c) (hs : r.Skills = some sk)
    (hshape : (∃ l₂, sk.data = ',' :: l₂) ∨ (∃ l₁, sk.data = l₁ ++ [','])
      ∨ (∃ l₁ l₂, sk.data = l₁ ++ ',' :: ',' :: l₂)) :
    "" ∈ (splitCommas sk).map pyStrip
  ∧ (c, "") ∈ explodeSkills df
  ∧ ((c, ""), (explodeSkills df).count (c, "")) ∈ skillPivot df
  ∧ 0 < (explodeSkills df).count (c, "")
  ∧ "" ∈ distinctSkills df c
  ∧ (c, (distinctSkills df c).length) ∈ skill_counts df := by
  have htok : ([] : List Char) ∈ splitCommaList sk.data := by
    rcases hshape with ⟨l₂, h⟩ | ⟨l₁, h⟩ | ⟨l₁, l₂, h⟩
    · rw [h]
      simp [splitCommaList]
    · rw [h, show l₁ ++ [','] = l₁ ++ ',' :: [] from rfl,
        splitCommaList_append]
      simp [splitCommaList]
    · rw [h, splitCommaList_append]
      simp [splitCommaList]
  have hmem : ("" : String) ∈ splitCommas sk :=
    List.mem_map.2 ⟨[], htok, rfl⟩
  have hemp : pyStrip "" = "" := rfl
  have hx : (c, "") ∈ explodeSkills df := by
    have h := mem_explodeSkills hr hc hs hmem
    rwa [hemp] at h
  refine ⟨List.mem_map.2 ⟨"", hmem, hemp⟩, hx, ?_,
    List.count_pos_iff.2 hx, ?_, ?_⟩
  · unfold skillPivot
    exact List.mem_map.2 ⟨(c, ""), List.mem_dedup.2 hx, rfl⟩
  · unfold distinctSkills
    apply List.mem_dedup.2
    exact List.mem_map.2 ⟨(c, ""), List.mem_filter.2 ⟨hx, by simp⟩, rfl⟩
  · unfold skill_counts
    refine List.mem_map.2 ⟨c, ?_, rfl⟩
    apply List.mem_dedup.2
    exact List.mem_map.2 ⟨(c, ""), hx, rfl⟩

/-- Witness for C10 on the trailing-comma row `Skills = "Python,"`. -/
theorem empty_skill_token_witness :
    "" ∈ (splitCommas "Python,").map pyStrip
  ∧ ("Sydney", "") ∈ explodeSkills [trailingCommaRow]
  ∧ "" ∈ distinctSkills [trailingCommaRow] "Sydney" := by
  have h := empty_skill_token [trailingCommaRow] trailingCommaRow "Sydney"
    "Python," (by decide) rfl rfl
    (Or.inr (Or.inl ⟨"Python".data, by decide⟩))
  exact ⟨h.1, h.2.1, h.2.2.2.2.1⟩

end Dashboard
